import Mathlib

/-!
Verification of the ADC serial sampler sketches of `python_serial_recorder`.

The firmware side of the repository consists of four Arduino sketches that
share one algorithm: a hardware timer fires `onTimer` at a fixed microsecond
interval; the handler reads every configured analog channel into a buffer
`sensorValue` and prints the buffer as one space-separated decimal line over
the serial port.  One variant additionally gates emission on a `SendData`
flag toggled by the serial input bytes `'s'` and `'e'`.

The embedding below translates the handler, its encoding loops, the
`serialEvent` input handler, the `setup` routine and the per-sketch
configuration constants into Lean, and proves the stated properties.
-/

namespace SerialRecorder

/-- Modelled from the spec: the serial transport's line terminator.
`Serial.println`'s implementation is not part of the repository; the spec
(§6: "terminated by a line feed") and the code's own comment
("send last channel with line feed") fix it as a single line feed. -/
def lineTerminator : String := "\n"

/-- `Serial.print` applied to an `int` value: the decimal representation of
the (possibly negative) integer, no padding. -/
def printInt (v : Int) : String := toString v

/-- The first encoding loop of `onTimer`:
`for (int i = 0; i < number_of_channels - 1; i++) { Serial.print(sensorValue[i]); Serial.print(" "); }`
i.e. every buffer entry except the last one is printed followed by a single
space; for fewer than two entries the loop body never runs. -/
def printAllButLast : List Int → String
  | [] => ""
  | [_] => ""
  | v :: w :: rest => printInt v ++ " " ++ printAllButLast (w :: rest)

/-- The final statement of `onTimer`:
`Serial.println(sensorValue[number_of_channels - 1]);` — the last buffer
entry followed by the line terminator.  For `N = 0` the C expression indexes
`sensorValue[-1]`, which is out of range; the model's `getD` default never
matters because every configuration in the source has `N ≥ 1`. -/
def printLast (buf : List Int) : String :=
  printInt (buf.getD (buf.length - 1) 0) ++ lineTerminator

/-- The serial output produced by the encoding section of `onTimer`
(both loops plus the final `println`) on a sample buffer. -/
def encodeLine (buf : List Int) : String :=
  printAllButLast buf ++ printLast buf

/-- The sampling loop of `onTimer`:
`for (int i = 0; i < number_of_channels; i++) { sensorValue[i] = analogRead(channels[i]); }`
`read` stands for `analogRead`; the index `i` starts at `0` and the channel
list is walked in order, each reading overwriting buffer position `i`. -/
def sampleLoop (read : Nat → Int) : List Nat → Nat → List Int → List Int
  | [], _, buf => buf
  | c :: cs, i, buf => sampleLoop read cs (i + 1) (buf.set i (read c))

/-- The full `onTimer` handler of the ungated sketches: sample every channel
into the buffer, then emit the encoded line.  Returns the buffer after the
trigger together with the bytes written to the serial port. -/
def onTimer (channels : List Nat) (read : Nat → Int) (buf : List Int) :
    List Int × String :=
  let buf := sampleLoop read channels 0 buf
  (buf, encodeLine buf)

/-- The body of `serialEvent`'s `switch` for one received byte:
`case 's': SendData = true; case 'e': SendData = false; default: break;`. -/
def serialEventStep (sendData : Bool) (inChar : Char) : Bool :=
  if inChar = 's' then true
  else if inChar = 'e' then false
  else sendData

/-- `serialEvent()`: drain all pending input bytes, updating `SendData`
byte by byte. -/
def serialEvent (sendData : Bool) (input : List Char) : Bool :=
  input.foldl serialEventStep sendData

/-- The global initializer `bool SendData = false;` of the gated sketch. -/
def SendDataInit : Bool := false

/-- The `onTimer` handler of the gated sketch: first `serialEvent()` drains
pending input, then the sampling and printing section runs only
`if (SendData)`.  Returns the new flag, the buffer and the emitted bytes. -/
def gatedOnTimer (channels : List Nat) (read : Nat → Int) (buf : List Int)
    (input : List Char) (sendData : Bool) : Bool × List Int × String :=
  let sd := serialEvent sendData input
  if sd then
    let buf := sampleLoop read channels 0 buf
    (sd, buf, encodeLine buf)
  else
    (sd, buf, "")

/-- A sequence of firings of the gated handler: each firing consumes the
pending input bytes of that tick and threads the `SendData` flag and the
buffer; the emitted bytes of every firing are collected in order. -/
def fireSeq (channels : List Nat) (read : Nat → Int) :
    List (List Char) → Bool → List Int → List String
  | [], _, _ => []
  | input :: rest, sendData, buf =>
    let r := gatedOnTimer channels read buf input sendData
    r.2.2 :: fireSeq channels read rest r.1 r.2.1

/-- The configuration surface of a sketch: baud rate, alarm period in
microseconds, channel list (spec §6). -/
structure Config where
  baudrate : Nat
  intervalMicros : Int
  channels : List Nat

/-- The state `setup()` leaves behind: serial initialized at the configured
baud rate, timer at 1 MHz base frequency, alarm set to the configured period
with auto-reload. -/
structure SystemState where
  baud : Nat
  timerBaseHz : Nat
  alarmMicros : Int
  autoReload : Bool

/-- `setup()` of every sketch:
`Serial.begin(BAUDRATE); delay(400); timer = timerBegin(1000000); timerAttachInterrupt(timer, &onTimer); timerAlarm(timer, <period>, true, 0);`
The codomain is an `Option` so that "refusing to start" would be `none`;
the source performs no validation of any kind and always starts. -/
def setup (cfg : Config) : Option SystemState :=
  some (SystemState.mk cfg.baudrate 1000000 cfg.intervalMicros true)

/-- `SamplingFrequency` of the spec (§4.4): `1,000,000` divided by the
configured number of microseconds between samples. -/
def samplingFrequency (intervalMicros : Nat) : Nat :=
  1000000 / intervalMicros

/-- The wire format stated by the spec (§4.3/§6), written from the spec's
words: the decimal representations of the values joined by single spaces,
with no leading or trailing space. -/
def specLine : List Int → String
  | [] => ""
  | [v] => toString v
  | v :: w :: rest => toString v ++ " " ++ specLine (w :: rest)

namespace ADCMain

/-- `#define BAUDRATE 115200` of `ADC_ttgo-t-display.ino`. -/
def BAUDRATE : Nat := 115200

/-- `#define MICROSECONDS_BETWEEN_SAMPLES 100000` of `ADC_ttgo-t-display.ino`. -/
def MICROSECONDS_BETWEEN_SAMPLES : Nat := 100000

/-- `uint8_t channels[] = { 2 };` of `ADC_ttgo-t-display.ino`. -/
def channels : List Nat := [2]

/-- `int number_of_channels = sizeof(channels);` — `sizeof` of a `uint8_t`
array equals its element count. -/
def number_of_channels : Nat := channels.length

end ADCMain

namespace SketchA

/-- `#define BAUDRATE 115200` of the first unnamed sketch. -/
def BAUDRATE : Nat := 115200

/-- `timerAlarm(timer, 1000, true, 0);` of the first unnamed sketch. -/
def alarmMicros : Nat := 1000

/-- `uint8_t channels[] = { 2, 15 };` of the first unnamed sketch. -/
def channels : List Nat := [2, 15]

/-- `int number_of_channels = sizeof(channels);`. -/
def number_of_channels : Nat := channels.length

end SketchA

namespace SketchB

/-- `#define BAUDRATE 921600` of the second unnamed sketch. -/
def BAUDRATE : Nat := 921600

/-- `timerAlarm(timer, 1000, true, 0);` of the second unnamed sketch. -/
def alarmMicros : Nat := 1000

/-- `uint8_t channels[] = { 2, 15, 13, 12 };` of the second unnamed sketch. -/
def channels : List Nat := [2, 15, 13, 12]

/-- `int number_of_channels = sizeof(channels);`. -/
def number_of_channels : Nat := channels.length

end SketchB

namespace SketchGated

/-- `#define BAUDRATE 115200` of the gated (SendData) sketch. -/
def BAUDRATE : Nat := 115200

/-- `timerAlarm(timer, 1000, true, 0);` of the gated sketch. -/
def alarmMicros : Nat := 1000

/-- `#define number_of_channels 1` of the gated sketch. -/
def number_of_channels : Nat := 1

end SketchGated

/-! ### Helper lemmas -/

lemma digitChar_ne_newline (m : Nat) : Nat.digitChar m ≠ '\n' := by
  match m with
  | 0 => decide
  | 1 => decide
  | 2 => decide
  | 3 => decide
  | 4 => decide
  | 5 => decide
  | 6 => decide
  | 7 => decide
  | 8 => decide
  | 9 => decide
  | 10 => decide
  | 11 => decide
  | 12 => decide
  | 13 => decide
  | 14 => decide
  | 15 => decide
  | n+16 => rw [show Nat.digitChar (n+16) = Char.ofNat 42 from rfl]; decide

lemma toDigitsCore_no_newline :
    ∀ (fuel n : Nat) (ds : List Char), '\n' ∉ ds →
      '\n' ∉ Nat.toDigitsCore 10 fuel n ds := by
  intro fuel
  induction fuel with
  | zero => intro n ds h; simpa [Nat.toDigitsCore] using h
  | succ fuel ih =>
    intro n ds h
    simp only [Nat.toDigitsCore]
    split
    · intro hm
      rcases List.mem_cons.mp hm with h1 | h2
      · exact digitChar_ne_newline _ h1.symm
      · exact h h2
    · refine ih _ _ ?_
      intro hm
      rcases List.mem_cons.mp hm with h1 | h2
      · exact digitChar_ne_newline _ h1.symm
      · exact h h2

lemma nat_repr_no_newline (n : Nat) : '\n' ∉ (Nat.repr n).data :=
  toDigitsCore_no_newline (n + 1) n [] (by simp)

lemma printInt_no_newline (v : Int) : '\n' ∉ (printInt v).data := by
  cases v with
  | ofNat n => exact nat_repr_no_newline n
  | negSucc n =>
    show '\n' ∉ ("-" ++ Nat.repr (n + 1)).data
    rw [String.data_append]
    intro hm
    rcases List.mem_append.mp hm with h1 | h2
    · simp at h1
    · exact nat_repr_no_newline (n + 1) h2

lemma printInt_count_newline (v : Int) : ((printInt v).data).count '\n' = 0 :=
  List.count_eq_zero.mpr (printInt_no_newline v)

lemma printAllButLast_count_newline (buf : List Int) :
    ((printAllButLast buf).data).count '\n' = 0 := by
  induction buf with
  | nil => rfl
  | cons v rest ih =>
    cases rest with
    | nil => rfl
    | cons w rest =>
      show (((printInt v ++ " ") ++ printAllButLast (w :: rest)).data).count '\n' = 0
      rw [String.data_append, String.data_append]
      simp [List.count_append, printInt_count_newline, ih]

lemma encodeLine_count_newline (buf : List Int) :
    ((encodeLine buf).data).count '\n' = 1 := by
  show (((printAllButLast buf)
      ++ (printInt (buf.getD (buf.length - 1) 0) ++ lineTerminator)).data).count '\n' = 1
  rw [String.data_append, String.data_append]
  simp [List.count_append, printAllButLast_count_newline, printInt_count_newline,
    lineTerminator]

lemma encodeLine_ne_empty (buf : List Int) : encodeLine buf ≠ "" := by
  intro h
  have h2 : ((encodeLine buf).data).count '\n' = (("" : String).data).count '\n' := by rw [h]
  rw [encodeLine_count_newline] at h2
  simp at h2

lemma printLast_cons_cons (v w : Int) (rest : List Int) :
    printLast (v :: w :: rest) = printLast (w :: rest) := by
  show printInt ((v :: w :: rest).getD (rest.length + 1) 0) ++ lineTerminator = _
  rw [List.getD_cons_succ]
  rfl

lemma encodeLine_cons_cons (v w : Int) (rest : List Int) :
    encodeLine (v :: w :: rest) = printInt v ++ " " ++ encodeLine (w :: rest) := by
  show (printInt v ++ " " ++ printAllButLast (w :: rest)) ++ printLast (v :: w :: rest) = _
  rw [printLast_cons_cons, String.append_assoc]
  rfl

lemma encodeLine_eq_specLine :
    ∀ buf : List Int, buf ≠ [] → encodeLine buf = specLine buf ++ lineTerminator := by
  intro buf
  induction buf with
  | nil => intro h; exact absurd rfl h
  | cons v rest ih =>
    intro _
    cases rest with
    | nil =>
      show "" ++ (printInt v ++ lineTerminator) = toString v ++ lineTerminator
      rw [String.empty_append]
      rfl
    | cons w rest =>
      rw [encodeLine_cons_cons, ih (by simp)]
      show printInt v ++ " " ++ (specLine (w :: rest) ++ lineTerminator) = _
      rw [← String.append_assoc]
      rfl

lemma sampleLoop_length (read : Nat → Int) :
    ∀ (cs : List Nat) (i : Nat) (buf : List Int),
      (sampleLoop read cs i buf).length = buf.length := by
  intro cs
  induction cs with
  | nil => intro i buf; rfl
  | cons c cs ih => intro i buf; simp [sampleLoop, ih]

lemma sampleLoop_getElem? (read : Nat → Int) :
    ∀ (cs : List Nat) (i : Nat) (buf : List Int) (j : Nat),
      (sampleLoop read cs i buf)[j]? =
        if i ≤ j ∧ j < i + cs.length ∧ j < buf.length then
          (cs[j - i]?).map read
        else buf[j]? := by
  intro cs
  induction cs with
  | nil =>
    intro i buf j
    rw [if_neg (by simp; omega)]
    rfl
  | cons c cs ih =>
    intro i buf j
    show (sampleLoop read cs (i + 1) (buf.set i (read c)))[j]? = _
    rw [ih (i + 1) (buf.set i (read c)) j]
    simp only [List.length_set, List.length_cons]
    by_cases h1 : i + 1 ≤ j ∧ j < i + 1 + cs.length ∧ j < buf.length
    · rw [if_pos h1, if_pos (by omega)]
      have hji : j - i = (j - (i + 1)) + 1 := by omega
      rw [hji]
      simp
    · rw [if_neg h1, List.getElem?_set]
      by_cases h2 : i = j
      · subst h2
        by_cases h3 : i < buf.length
        · rw [if_pos rfl, if_pos h3, if_pos (by omega)]
          simp
        · rw [if_pos rfl, if_neg h3, if_neg (by omega)]
          exact (List.getElem?_eq_none (by omega)).symm
      · rw [if_neg h2, if_neg (by omega)]

lemma sampleLoop_eq_map (read : Nat → Int) (cs : List Nat) (buf : List Int)
    (h : buf.length = cs.length) : sampleLoop read cs 0 buf = cs.map read := by
  apply List.ext_getElem?
  intro j
  rw [sampleLoop_getElem? read cs 0 buf j]
  by_cases hj : j < cs.length
  · rw [if_pos (by omega)]
    simp
  · rw [if_neg (by omega)]
    rw [List.getElem?_eq_none (by omega), List.getElem?_eq_none (by simpa using hj)]

lemma serialEventStep_false (c : Char) (h : c ≠ 's') :
    serialEventStep false c = false := by
  unfold serialEventStep
  rw [if_neg h]
  split <;> rfl

lemma serialEvent_false_of_no_s :
    ∀ (input : List Char), 's' ∉ input → serialEvent false input = false := by
  intro input
  induction input with
  | nil => intro _; rfl
  | cons c rest ih =>
    intro h
    show (rest.foldl serialEventStep (serialEventStep false c)) = false
    rw [serialEventStep_false c (fun hc => h (hc ▸ List.mem_cons_self c rest))]
    exact ih (fun hm => h (List.mem_cons_of_mem c hm))

lemma gatedOnTimer_of_not_send (channels : List Nat) (read : Nat → Int)
    (buf : List Int) (input : List Char) (sd : Bool)
    (h : serialEvent sd input = false) :
    gatedOnTimer channels read buf input sd = (false, buf, "") := by
  unfold gatedOnTimer
  rw [h]
  rfl

lemma fireSeq_no_s (channels : List Nat) (read : Nat → Int) :
    ∀ (inputs : List (List Char)) (buf : List Int),
      (∀ inp ∈ inputs, 's' ∉ inp) →
      ∀ out ∈ fireSeq channels read inputs false buf, out = "" := by
  intro inputs
  induction inputs with
  | nil => intro buf _ out hout; simp [fireSeq] at hout
  | cons input rest ih =>
    intro buf h out hout
    have hse : serialEvent false input = false :=
      serialEvent_false_of_no_s input (h input (List.mem_cons_self input rest))
    rw [show fireSeq channels read (input :: rest) false buf
          = (gatedOnTimer channels read buf input false).2.2
            :: fireSeq channels read rest (gatedOnTimer channels read buf input false).1
                (gatedOnTimer channels read buf input false).2.1 from rfl,
        gatedOnTimer_of_not_send channels read buf input false hse] at hout
    rcases List.mem_cons.mp hout with h1 | h2
    · exact h1
    · exact ih buf (fun inp hm => h inp (List.mem_cons_of_mem input hm)) out h2

/-! ### Claim theorems -/

/-- C1: For every sample buffer of length N ≥ 1, the encoded line consists of
the decimal representation of each of the values at indices 0..N-2 followed by
a single space, and the value at index N-1 followed by the line terminator
with no trailing space before it; in particular for N = 1 the line is exactly
one decimal value immediately followed by the terminator, with no separator. -/
theorem encoded_line_format :
    (∀ buf : List Int, buf ≠ [] → encodeLine buf = specLine buf ++ lineTerminator) ∧
    (∀ v : Int, encodeLine [v] = printInt v ++ lineTerminator) := by
  constructor
  · exact encodeLine_eq_specLine
  · intro v
    show "" ++ (printInt v ++ lineTerminator) = printInt v ++ lineTerminator
    rw [String.empty_append]

/-- Witness for C1 at the concrete buffer [5, -7]. -/
theorem encoded_line_format_witness :
    encodeLine [(5 : Int), -7] = specLine [(5 : Int), -7] ++ lineTerminator :=
  encoded_line_format.1 [(5 : Int), -7] (by simp)

/-- C2: The line terminator is a single line feed: for a 3-channel
configuration whose channel-reading function returns [10, -3, 255], one
firing of the handler emits exactly the 10 bytes "10 -3 255\n". -/
theorem encoder_three_channel_example :
    ∀ (a b c : Nat) (read : Nat → Int) (buf : List Int),
      buf.length = 3 → read a = 10 → read b = -3 → read c = 255 →
      (onTimer [a, b, c] read buf).2 = "10 -3 255\n" ∧
        ((onTimer [a, b, c] read buf).2).length = 10 := by
  intro a b c read buf hlen ha hb hc
  have hmap : sampleLoop read [a, b, c] 0 buf = [read a, read b, read c] := by
    rw [sampleLoop_eq_map read [a, b, c] buf (by simpa using hlen)]
    rfl
  have hout : (onTimer [a, b, c] read buf).2 = encodeLine [10, -3, 255] := by
    show encodeLine (sampleLoop read [a, b, c] 0 buf) = _
    rw [hmap, ha, hb, hc]
  constructor
  · rw [hout]; decide
  · rw [hout]; decide

/-- Witness for C2 with a concrete reading function on channels 0, 1, 2. -/
theorem encoder_three_channel_example_witness :
    (onTimer [0, 1, 2]
        (fun ch => if ch = 0 then (10 : Int) else if ch = 1 then -3 else 255)
        [0, 0, 0]).2 = "10 -3 255\n" :=
  (encoder_three_channel_example 0 1 2
    (fun ch => if ch = 0 then (10 : Int) else if ch = 1 then -3 else 255)
    [0, 0, 0] rfl rfl rfl rfl).1

/-- C3: The claim states that an empty ChannelList (N = 0) is rejected at
initialization.  The source's `setup()` performs no validation whatsoever:
this theorem evaluates the embedded `setup` at the empty-channel
configuration of the main sketch and shows it is accepted (the program
starts; on a trigger the C code would then read `sensorValue[-1]`, an
out-of-range access). -/
theorem setup_accepts_empty_channel_list :
    (setup (Config.mk ADCMain.BAUDRATE
      (ADCMain.MICROSECONDS_BETWEEN_SAMPLES : Int) [])).isSome = true := rfl

/-- C4: The claim states that a configuration with a non-positive sampling
interval (or a channel-count/buffer-size mismatch) is rejected at
initialization.  The source's `setup()` performs no validation: this theorem
evaluates the embedded `setup` at interval 0 and at interval -5 and shows
both configurations are accepted and the timer armed. -/
theorem setup_accepts_nonpositive_interval :
    (setup (Config.mk ADCMain.BAUDRATE 0 ADCMain.channels)).isSome = true ∧
    (setup (Config.mk ADCMain.BAUDRATE (-5) ADCMain.channels)).isSome = true :=
  ⟨rfl, rfl⟩

/-- C5 counterexample: a firing of the gated handler while SendData is false
(here: the startup value, with no pending input) emits zero lines — the
emitted byte string is empty and contains no line feed — refuting the claim
that no firing produces zero lines. -/
theorem gated_firing_emits_zero_lines :
    (gatedOnTimer [2] (fun x => (7 : Int)) [0] [] false).2.2 = "" ∧
      (((gatedOnTimer [2] (fun x => (7 : Int)) [0] [] false).2.2).data).count '\n' = 0 :=
  ⟨rfl, rfl⟩

/-- C5 (amended): every firing of the ungated handler emits exactly one
encoded line (exactly one line feed is written before it returns); a firing
of the gated variant whose SendData flag is false after draining the pending
input emits zero lines. -/
theorem each_firing_emits_one_line :
    (∀ (channels : List Nat) (read : Nat → Int) (buf : List Int),
        channels ≠ [] → buf.length = channels.length →
        (((onTimer channels read buf).2).data).count '\n' = 1) ∧
    (∀ (channels : List Nat) (read : Nat → Int) (buf : List Int)
        (input : List Char) (sd : Bool),
        serialEvent sd input = false →
        (((gatedOnTimer channels read buf input sd).2.2).data).count '\n' = 0) := by
  constructor
  · intro channels read buf _ _
    exact encodeLine_count_newline _
  · intro channels read buf input sd h
    rw [gatedOnTimer_of_not_send channels read buf input sd h]
    rfl

/-- Witness for C5 (amended) at a concrete one-channel firing. -/
theorem each_firing_emits_one_line_witness :
    (((onTimer [2] (fun x => (7 : Int)) [0]).2).data).count '\n' = 1 :=
  each_firing_emits_one_line.1 [2] (fun x => (7 : Int)) [0] (by simp) rfl

/-- C6: on each trigger the Sampler iterates the ChannelList in order from
index 0 to N-1 and stores the current reading of channel i at index i of the
SampleBuffer: after the handler, buffer entry i equals read(channels[i]) for
every i < N. -/
theorem sampler_stores_at_matching_index :
    ∀ (channels : List Nat) (read : Nat → Int) (buf : List Int),
      buf.length = channels.length →
      ∀ i : Nat, i < channels.length →
        ((onTimer channels read buf).1)[i]? = (channels[i]?).map read := by
  intro channels read buf h i _
  show (sampleLoop read channels 0 buf)[i]? = _
  rw [sampleLoop_eq_map read channels buf h]
  simp

/-- Witness for C6: channel 9 at index 1 of a two-channel configuration. -/
theorem sampler_stores_at_matching_index_witness :
    ((onTimer [4, 9] (fun c => (c : Int)) [0, 0]).1)[1]? = some 9 :=
  (sampler_stores_at_matching_index [4, 9] (fun c => (c : Int)) [0, 0]
    rfl 1 (by decide)).trans rfl

/-- C7: len(SampleBuffer) = len(ChannelList) holds before and after every
trigger invocation: the handler never resizes the buffer (its length after
equals its length before), so a buffer allocated with N = len(ChannelList)
entries still has length N after any firing; the channel list itself is
passed immutably. -/
theorem sample_buffer_length_invariant :
    ∀ (channels : List Nat) (read : Nat → Int) (buf : List Int),
      ((onTimer channels read buf).1).length = buf.length ∧
      (buf.length = channels.length →
        ((onTimer channels read buf).1).length = channels.length) := by
  intro channels read buf
  constructor
  · exact sampleLoop_length read channels 0 buf
  · intro h
    rw [show ((onTimer channels read buf).1).length = buf.length from
      sampleLoop_length read channels 0 buf, h]

/-- Witness for C7 at a concrete two-channel firing. -/
theorem sample_buffer_length_invariant_witness :
    ((onTimer [2, 15] (fun c => (3 : Int)) [0, 0]).1).length = 2 :=
  (sample_buffer_length_invariant [2, 15] (fun c => (3 : Int)) [0, 0]).2 rfl

/-- C8: the emitted line is a deterministic function of the current channel
readings only: two firings with the same reading function and any two prior
buffer contents produce identical encoded lines. -/
theorem handler_output_deterministic :
    ∀ (channels : List Nat) (read : Nat → Int) (buf₁ buf₂ : List Int),
      buf₁.length = channels.length → buf₂.length = channels.length →
      (onTimer channels read buf₁).2 = (onTimer channels read buf₂).2 := by
  intro channels read buf₁ buf₂ h₁ h₂
  show encodeLine (sampleLoop read channels 0 buf₁)
      = encodeLine (sampleLoop read channels 0 buf₂)
  rw [sampleLoop_eq_map read channels buf₁ h₁, sampleLoop_eq_map read channels buf₂ h₂]

/-- Witness for C8 with two different prior buffer contents. -/
theorem handler_output_deterministic_witness :
    (onTimer [2] (fun c => (7 : Int)) [5]).2 = (onTimer [2] (fun c => (7 : Int)) [9]).2 :=
  handler_output_deterministic [2] (fun c => (7 : Int)) [5] [9] rfl rfl

/-- C9: in each of the four configurations present in the source the
configured baud rate strictly exceeds SamplingFrequency × N × 8 × 7, where
SamplingFrequency is 1,000,000 divided by the configured microseconds
between samples and N the number of channels. -/
theorem baudrate_exceeds_throughput_bound :
    ADCMain.BAUDRATE >
        samplingFrequency ADCMain.MICROSECONDS_BETWEEN_SAMPLES
          * ADCMain.number_of_channels * 8 * 7 ∧
    SketchA.BAUDRATE >
        samplingFrequency SketchA.alarmMicros * SketchA.number_of_channels * 8 * 7 ∧
    SketchB.BAUDRATE >
        samplingFrequency SketchB.alarmMicros * SketchB.number_of_channels * 8 * 7 ∧
    SketchGated.BAUDRATE >
        samplingFrequency SketchGated.alarmMicros
          * SketchGated.number_of_channels * 8 * 7 := by
  refine ⟨?_, ?_, ?_, ?_⟩ <;> decide

/-- C10: in the gated variant, SendData is false at startup, set to true
exactly by the byte 's', set to false exactly by the byte 'e', and left
unchanged by every other byte; a firing emits a line iff SendData is true at
that firing (after draining pending input), and no line is ever emitted over
any sequence of firings in which no 's' byte arrives. -/
theorem sendData_gating :
    SendDataInit = false ∧
    (∀ sd : Bool, serialEventStep sd 's' = true) ∧
    (∀ sd : Bool, serialEventStep sd 'e' = false) ∧
    (∀ (sd : Bool) (c : Char), c ≠ 's' → c ≠ 'e' → serialEventStep sd c = sd) ∧
    (∀ (channels : List Nat) (read : Nat → Int) (buf : List Int)
        (input : List Char) (sd : Bool), channels ≠ [] →
        ((gatedOnTimer channels read buf input sd).2.2 ≠ ""
          ↔ serialEvent sd input = true)) ∧
    (∀ (channels : List Nat) (read : Nat → Int) (inputs : List (List Char))
        (buf : List Int),
        (∀ inp ∈ inputs, 's' ∉ inp) →
        ∀ out ∈ fireSeq channels read inputs SendDataInit buf, out = "") := by
  refine ⟨rfl, fun sd => rfl, fun sd => rfl, ?_, ?_, ?_⟩
  · intro sd c hs he
    unfold serialEventStep
    rw [if_neg hs, if_neg he]
  · intro channels read buf input sd _
    unfold gatedOnTimer
    by_cases h : serialEvent sd input = true
    · rw [h]
      simpa using encodeLine_ne_empty (sampleLoop read channels 0 buf)
    · rw [Bool.not_eq_true] at h
      rw [h]
      simp
  · intro channels read inputs buf h out hout
    exact fireSeq_no_s channels read inputs buf h out hout

/-- Witness for C10: a firing that receives only 'e' while the flag was true
emits nothing. -/
theorem sendData_gating_witness :
    (gatedOnTimer [2] (fun c => (3 : Int)) [0] ['e'] true).2.2 = "" := by
  by_contra hc
  have h := (sendData_gating.2.2.2.2.1 [2] (fun c => (3 : Int)) [0] ['e'] true
    (by simp)).mp hc
  exact absurd h (by decide)

end SerialRecorder
